import Mathlib

/-!
Verification of the pio-spi repository against its specification.

The repository (src/src/lib.rs, src/src/main.rs) implements a half-duplex SPI
master on the RP2350 PIO block: a fixed 15-instruction PIO program drives a
clock pin, shifts `message_size` data bits out on MOSI and then samples
`message_size` bits in from MISO, while the host side (`PioSpiMaster::new`,
`transfer`, `write`) splits 64-bit values into 32-bit FIFO words and
recombines the drained words.

The development below is a shallow embedding of that code:

* the host-visible data (`SpiMasterConfig`, the embassy `Config` fields set by
  `new`, the `PioSpiMaster` state) becomes Lean structures over `Nat`, with
  machine-integer wrap-around written as explicit `% 2 ^ w`;
* the PIO program emitted by `get_pio_program` (src/src/lib.rs lines 244-267)
  becomes a small-step interpreter `step` over `EngineState`, instruction by
  instruction, including the RP2350 shift-register rules the program relies on
  (auto-pull of the OSR at a 32-bit threshold, auto-push of the ISR at the
  configured threshold, post-decrement `jmp x--`, FIFO depth 4);
* `transfer` and `write` (src/src/lib.rs lines 146-174 and 194-210) become
  functions on `PioSpiMaster`; blocking FIFO reads are modelled by running the
  engine until a word is available (`runUntilRx`).  The engine is run lazily:
  it advances exactly when the host would otherwise block, which yields the
  same observable words as the free-running hardware because each FIFO has a
  single producer and a single consumer.

Loopback wiring (the data-out line fed back into data-in) is modelled by the
`in pins, 1` instruction sampling the current MOSI output level.
-/

namespace PioSpi

/-- Mirrors `SpiMasterConfig` (src/src/lib.rs lines 47-50): `clk_div: u16` and
`message_size: usize`.  Machine integers are modelled as `Nat`; the `u16`
bound on `clk_div` is carried as a hypothesis where it matters. -/
structure SpiMasterConfig where
  clk_div : Nat
  message_size : Nat
  deriving Repr, DecidableEq

/-- Mirrors the embassy-rp `ShiftConfig` fields set by `new`
(src/src/lib.rs lines 98-108): the auto-fill/auto-push flag and the shift
threshold in bits. -/
structure ShiftConfig where
  auto_fill : Bool
  threshold : Nat
  deriving Repr, DecidableEq

/-- Mirrors the embassy-rp `Config` fields that `PioSpiMaster::new` assigns
(src/src/lib.rs lines 80-108): pin routing, the raw fixed-point clock divider
(a `FixedU32<U8>`, stored here as its raw value, i.e. the integer value times
`2 ^ 8`), and the two shift-register configurations. -/
structure Config where
  clock_divider : Nat
  out_pins : List Nat
  set_pins : List Nat
  in_pins : List Nat
  shift_out : ShiftConfig
  shift_in : ShiftConfig
  deriving Repr, DecidableEq

/-- Runtime state of the PIO state machine executing the program of
`get_pio_program` (src/src/lib.rs lines 244-267), plus the two FIFOs and the
observable pin levels.  `osrCount` / `isrCount` are the hardware shift
counters: the number of bits already shifted out of the OSR (32 means empty)
and the number of bits shifted into the ISR.  `clkEdges` counts the
transitions of the clock pin level (it is instrumentation, written only by
`setClk`).  Pin levels are 0 or 1. -/
structure EngineState where
  pc : Nat
  x : Nat
  y : Nat
  osr : Nat
  osrCount : Nat
  isr : Nat
  isrCount : Nat
  clk : Nat
  mosi : Nat
  tx : List Nat
  rx : List Nat
  clkEdges : Nat
  deriving Repr, DecidableEq

/-- Hardware FIFO depth of an RP2350 PIO state machine (4 words each way; the
program does not join the FIFOs). -/
def fifoDepth : Nat := 4

/-- Drive the clock pin (`set pins, b`, clock routed via `set_set_pins`),
counting a transition when the level changes. -/
def setClk (b : Nat) (s : EngineState) : EngineState :=
  { s with clk := b, clkEdges := s.clkEdges + (if s.clk = b then 0 else 1) }

/-- Refill the OSR from the TX FIFO if a word is available (the auto-pull
action at the 32-bit `shift_out` threshold configured by `new`); no-op on an
empty FIFO (the next `out` then stalls). -/
def osrRefill (s : EngineState) : EngineState :=
  match s.tx with
  | [] => s
  | w :: rest => { s with osr := w, osrCount := 0, tx := rest }

/-- Execute `out pins, n` (`toPins = true`, the low bit drives MOSI) or
`out null, n` (`toPins = false`).  Shift direction is right (the embassy
`Config` default, matching the RP2350 reset state), so the low `n` bits leave
the OSR first and the shift counter saturates at 32.  With auto-pull enabled:
if the OSR is already empty (counter at 32) the instruction first refills it,
stalling (`none`) when the TX FIFO is empty; reaching the threshold after the
shift refills eagerly when a word is available. -/
def execOut (n : Nat) (toPins : Bool) (s : EngineState) : Option EngineState :=
  let go : EngineState → EngineState := fun t =>
    let t1 : EngineState :=
      { t with
        mosi := if toPins then t.osr % 2 ^ n else t.mosi,
        osr := t.osr >>> n,
        osrCount := min 32 (t.osrCount + n) }
    if 32 ≤ t1.osrCount then osrRefill t1 else t1
  if 32 ≤ s.osrCount then
    match s.tx with
    | [] => none
    | _ => some (go (osrRefill s))
  else
    some (go s)

/-- Push the ISR into the RX FIFO and clear it (the auto-push action at the
`shift_in` threshold configured by `new`).  Callers check for FIFO space. -/
def isrPush (s : EngineState) : EngineState :=
  { s with rx := s.rx ++ [s.isr], isr := 0, isrCount := 0 }

/-- Execute `in pins, 1` with data-out looped back to data-in: the sampled
level is the current MOSI output.  Shift direction is right (the embassy
default), so the sampled bit enters at bit 31.  With auto-push enabled at
threshold `th`: a pending push on a full RX FIFO stalls (`none`); reaching
the threshold pushes eagerly when there is space. -/
def execIn (th : Nat) (s : EngineState) : Option EngineState :=
  let go : EngineState → Option EngineState := fun t =>
    let t1 : EngineState :=
      { t with isr := (t.isr >>> 1) + t.mosi * 2 ^ 31, isrCount := t.isrCount + 1 }
    some (if th ≤ t1.isrCount ∧ t1.rx.length < fifoDepth then isrPush t1 else t1)
  if th ≤ s.isrCount then
    if s.rx.length < fifoDepth then go (isrPush s) else none
  else
    go s

/-- Execute `jmp x--, target`: jump when X is non-zero, and post-decrement X
(wrapping at 32 bits) in either case. -/
def jmpDec (target next : Nat) (s : EngineState) : EngineState :=
  { s with
    x := (s.x + (2 ^ 32 - 1)) % 2 ^ 32,
    pc := if s.x = 0 then next else target }

/-- One instruction of the program emitted by `get_pio_program`
(src/src/lib.rs lines 244-267), at the given `shift_in` threshold `th`.
`none` means the state machine is stalled on a FIFO.  Addresses:

*  0: `set pins, 1`               (clock idles high, SPI mode 3)
*  1: `pull block`                (the first TX word is `message_size`)
*  2: `mov y, osr`
*  3: `mov x, y`                  (`.wrap_target`)
*  4: `set pins, 0`               (`loop_write:`)
*  5: `out pins, 1`
*  6: `set pins, 1`
*  7: `jmp x--, loop_write`
*  8: `out null, 32`
*  9: `mov x, y`
* 10: `set pins, 0`               (`loop_read:`)
* 11: `in pins, 1`
* 12: `set pins, 1`
* 13: `jmp x--, loop_read`
* 14: `push noblock`, then `.wrap` back to address 3.

`push noblock` drops the word when the RX FIFO is full and clears the ISR
either way. -/
def step (th : Nat) (s : EngineState) : Option EngineState :=
  match s.pc with
  | 0 => some { setClk 1 s with pc := 1 }
  | 1 =>
    match s.tx with
    | [] => none
    | w :: rest => some { s with osr := w, osrCount := 0, tx := rest, pc := 2 }
  | 2 => some { s with y := s.osr, pc := 3 }
  | 3 => some { s with x := s.y, pc := 4 }
  | 4 => some { setClk 0 s with pc := 5 }
  | 5 => (execOut 1 true s).map fun t => { t with pc := 6 }
  | 6 => some { setClk 1 s with pc := 7 }
  | 7 => some (jmpDec 4 8 s)
  | 8 => (execOut 32 false s).map fun t => { t with pc := 9 }
  | 9 => some { s with x := s.y, pc := 10 }
  | 10 => some { setClk 0 s with pc := 11 }
  | 11 => (execIn th s).map fun t => { t with pc := 12 }
  | 12 => some { setClk 1 s with pc := 13 }
  | 13 => some (jmpDec 10 14 s)
  | 14 =>
    some { s with
      rx := if s.rx.length < fifoDepth then s.rx ++ [s.isr] else s.rx,
      isr := 0, isrCount := 0, pc := 3 }
  | _ => none

/-- State machine state right after `set_config` and `set_enable(true)`
(src/src/lib.rs lines 110-113): program counter at the first instruction,
scratch registers and shift registers cleared, OSR empty (counter at 32, so
the first pull really pulls), both FIFOs empty, pins low. -/
def EngineState.init : EngineState :=
  { pc := 0, x := 0, y := 0, osr := 0, osrCount := 32, isr := 0, isrCount := 0,
    clk := 0, mosi := 0, tx := [], rx := [], clkEdges := 0 }

/-- Mirrors the `PioSpiMaster` struct (src/src/lib.rs lines 52-56): the owned
state machine (here `engine` plus its applied `cfg`) and `message_size`.
`txLog` and `pullCount` are instrumentation for the word-count claims: every
`sm.tx().push(..)` appends the pushed word to `txLog`, and every
`sm.rx().pull()` increments `pullCount`. -/
structure PioSpiMaster where
  cfg : Config
  message_size : Nat
  engine : EngineState
  txLog : List Nat
  pullCount : Nat
  deriving Repr, DecidableEq

/-- Mirrors `sm.tx().push(w)`: enqueue a 32-bit word (`as u32` casts at the
call sites are modelled by the `% 2 ^ 32`).  The host never overruns the TX
FIFO in the scenarios proved here, so no blocking is modelled on this side. -/
def hostPush (m : PioSpiMaster) (w : Nat) : PioSpiMaster :=
  { m with
    engine := { m.engine with tx := m.engine.tx ++ [w % 2 ^ 32] },
    txLog := m.txLog ++ [w % 2 ^ 32] }

/-- Run the engine until a word sits in the RX FIFO, the machine stalls, or
the fuel runs out.  This models a blocking `sm.rx().pull()`: the hardware
engine runs freely, and the host resumes once a word arrives. -/
def runUntilRx (th : Nat) : Nat → EngineState → EngineState
  | 0, e => e
  | fuel + 1, e =>
    if e.rx ≠ [] then e
    else
      match step th e with
      | none => e
      | some e1 => runUntilRx th fuel e1

/-- Fuel bound for engine runs; one transfer cycle needs fewer than 600
steps, so this is ample for the finite scenarios proved here. -/
def engineFuel : Nat := 4000

/-- Mirrors `sm.rx().pull()`: run the engine until it has produced a word,
dequeue it, and count the pull.  (On a permanently stalled engine the real
call would block forever; the model then returns 0, a case none of the
theorems relies on.) -/
def hostPull (m : PioSpiMaster) : Nat × PioSpiMaster :=
  let e := runUntilRx m.cfg.shift_in.threshold engineFuel m.engine
  (e.rx.headD 0,
   { m with engine := { e with rx := e.rx.tail }, pullCount := m.pullCount + 1 })

/-- Mirrors `PioSpiMaster::new` (src/src/lib.rs lines 68-123).  It loads the
program, builds the `Config` — clock divider `(clk_div as u32 - 1).to_fixed()`
(the `u32` subtraction is modelled wrapping, as released code computes it;
`clkDividerChecked` below models the debug-build underflow check), out pins =
MOSI, set pins = CLK, in pins = MISO, `shift_out` auto-fill at threshold 32,
`shift_in` auto-push at threshold `min message_size 32` — applies it, enables
the state machine, and pushes `message_size as u32` into the TX FIFO.  Note
that `new` validates nothing: it cannot fail, whatever `message_size` is. -/
def PioSpiMaster.new (clk_pin mosi_pin miso_pin : Nat) (config : SpiMasterConfig) :
    PioSpiMaster :=
  let cfg : Config :=
    { clock_divider := ((config.clk_div + (2 ^ 32 - 1)) % 2 ^ 32) * 2 ^ 8,
      out_pins := [mosi_pin],
      set_pins := [clk_pin],
      in_pins := [miso_pin],
      shift_out := { auto_fill := true, threshold := 32 },
      shift_in := { auto_fill := true, threshold := min config.message_size 32 } }
  hostPush
    { cfg := cfg, message_size := config.message_size, engine := EngineState.init,
      txLog := [], pullCount := 0 }
    config.message_size

/-- Mirrors `usize::div_ceil`: `message_size.div_ceil(32)` in `transfer` and
`write`. -/
def divCeil (a b : Nat) : Nat := (a + (b - 1)) / b

/-- Mirrors `PioSpiMaster::transfer` (src/src/lib.rs lines 146-174): mask the
data to `message_size` bits, push the low word and, when more than one word
is needed, the high word, into the TX FIFO; pull one (or two) words from the
RX FIFO, recombine them low word first, and mask the result.  The `u64` shift
`1 << message_size` is in range exactly when `message_size < 64`
(`transferMaskChecked` below models the overflow); over `Nat` the same
expression is total and agrees wherever the Rust expression is defined. -/
def PioSpiMaster.transfer (m : PioSpiMaster) (data : Nat) : Nat × PioSpiMaster :=
  let mask := (1 <<< m.message_size) - 1
  let d := data &&& mask
  let words_needed := divCeil m.message_size 32
  let tx_low := d &&& 0xFFFFFFFF
  let m1 := hostPush m tx_low
  let m2 := if 1 < words_needed then hostPush m1 ((d >>> 32) &&& 0xFFFFFFFF) else m1
  let p1 := hostPull m2
  let q :=
    if 1 < words_needed then
      let p2 := hostPull p1.2
      (p1.1 ||| (p2.1 <<< 32), p2.2)
    else p1
  (q.1 &&& mask, q.2)

/-- Mirrors `PioSpiMaster::write` (src/src/lib.rs lines 194-210): the same
masking and TX-FIFO pushes as `transfer`, with no RX pull. -/
def PioSpiMaster.write (m : PioSpiMaster) (data : Nat) : PioSpiMaster :=
  let mask := (1 <<< m.message_size) - 1
  let d := data &&& mask
  let words_needed := divCeil m.message_size 32
  let m1 := hostPush m (d &&& 0xFFFFFFFF)
  if 1 < words_needed then hostPush m1 ((d >>> 32) &&& 0xFFFFFFFF) else m1

/-- Models the mask computation `(1u64 << self.message_size) - 1` shared by
`transfer` (line 148) and `write` (line 196) with Rust overflow semantics: a
`u64` shift by 64 or more panics (in debug builds; `none` here), otherwise
the value is exact. -/
def transferMaskChecked (message_size : Nat) : Option Nat :=
  if message_size < 64 then some ((1 <<< message_size) - 1) else none

/-- Models `config.clk_div as u32 - 1` (src/src/lib.rs line 95) with Rust
debug overflow semantics: the `u32` subtraction underflows (`none`, a panic)
when `clk_div = 0`, and is exact otherwise. -/
def clkDividerChecked (clk_div : Nat) : Option Nat :=
  if 1 ≤ clk_div then some (clk_div - 1) else none

/-- Modelled from the spec: the specification's construction-time error
`ConfigError::WidthOutOfRange` (spec sections 7 and 8).  The source defines
no error type at all. -/
inductive ConfigError where
  | WidthOutOfRange
  deriving Repr, DecidableEq

/-- Construction outcome of `PioSpiMaster::new` on the fallible interface the
specification describes.  The source's `new` returns `Self` unconditionally
(src/src/lib.rs lines 68-123, no width check anywhere), so the outcome is
always `ok`. -/
def newOutcome (clk_pin mosi_pin miso_pin : Nat) (config : SpiMasterConfig) :
    Except ConfigError PioSpiMaster :=
  Except.ok (PioSpiMaster.new clk_pin mosi_pin miso_pin config)

/-- Master as built by the demo in src/src/main.rs: clock pin 2, MOSI pin 3,
MISO pin 4, clock divider 8, at the given message size. -/
def mkMaster (message_size : Nat) : PioSpiMaster :=
  PioSpiMaster.new 2 3 4 { clk_div := 8, message_size := message_size }

/-- Result of the first `transfer` call after construction, with the data-out
line wired directly to the data-in line (the interpreter's `in pins, 1`
samples the MOSI level). -/
def firstLoopbackTransfer (message_size v : Nat) : Nat :=
  ((mkMaster message_size).transfer v).1

/-- Harness for the split/recombine law: a freshly built master whose RX FIFO
already holds exactly the words `transfer` is about to push (the ideal wire
that echoes every word back).  `transfer` on this master exercises its real
pull-and-recombine path on its own pushed words. -/
def echoMaster (message_size v : Nat) : PioSpiMaster :=
  let m := mkMaster message_size
  let d := v &&& ((1 <<< message_size) - 1)
  { m with
    engine :=
      { m.engine with
        rx := if 32 < message_size then [d % 2 ^ 32, d / 2 ^ 32] else [d % 2 ^ 32] } }

/-- Run the engine until it next sits at the `.wrap_target` (address 3),
stalls, or runs out of fuel.  Always takes at least one step, so iterating it
delimits one full transfer cycle of the program. -/
def runUntilWrap (th : Nat) : Nat → EngineState → EngineState
  | 0, e => e
  | fuel + 1, e =>
    match step th e with
    | none => e
    | some e1 => if e1.pc = 3 then e1 else runUntilWrap th fuel e1

/-- Clock transitions produced by one full transfer cycle of the sequencer
program (from one arrival at `.wrap_target` to the next), with the TX FIFO
stocked so the engine never stalls mid-cycle. -/
def edgesPerCycle (message_size : Nat) : Nat :=
  let m := mkMaster message_size
  let e0 := { m.engine with tx := m.engine.tx ++ [0, 0, 0, 0, 0] }
  let a := runUntilWrap m.cfg.shift_in.threshold engineFuel e0
  let b := runUntilWrap m.cfg.shift_in.threshold engineFuel a
  b.clkEdges - a.clkEdges

/-! ### Helper lemmas -/

/-- Masking twice with the same mask is masking once. -/
theorem land_mask_twice (x M : Nat) : (x &&& M) &&& M = x &&& M := by
  rw [Nat.and_assoc, Nat.and_self]

/-- Masking with `(1 <<< n) - 1` is reduction modulo `2 ^ n`. -/
theorem and_shiftLeft_mask (x n : Nat) : x &&& ((1 <<< n) - 1) = x % 2 ^ n := by
  rw [Nat.one_shiftLeft, Nat.and_pow_two_sub_one_eq_mod]

/-- Masking with the literal `0xFFFFFFFF` is reduction modulo `2 ^ 32`. -/
theorem and_u32 (x : Nat) : x &&& 0xFFFFFFFF = x % 2 ^ 32 := by
  have h : (0xFFFFFFFF : Nat) = 2 ^ 32 - 1 := by norm_num
  rw [h, Nat.and_pow_two_sub_one_eq_mod]

/-- Recombining the low 32 bits with the high bits shifted back up, then
masking to `k ≥ 32` bits, restores a `k`-bit value. -/
theorem or_low_high (v k : Nat) (hv : v < 2 ^ k) :
    ((v % 2 ^ 32) ||| ((v / 2 ^ 32) <<< 32)) &&& ((1 <<< k) - 1) = v := by
  rw [Nat.one_shiftLeft, ← Nat.shiftRight_eq_div_pow]
  apply Nat.eq_of_testBit_eq
  intro i
  simp only [Nat.testBit_and, Nat.testBit_or, Nat.testBit_mod_two_pow,
    Nat.testBit_shiftLeft, Nat.testBit_shiftRight, Nat.testBit_two_pow_sub_one]
  by_cases hik : i < k
  · by_cases hi32 : i < 32
    · have h2 : ¬ 32 ≤ i := by omega
      simp [hi32, hik, h2]
    · have hge : 32 ≤ i := by omega
      have hplus : 32 + (i - 32) = i := by omega
      simp [hi32, hik, hge, hplus]
  · have hvi : v.testBit i = false :=
      Nat.testBit_lt_two_pow
        (lt_of_lt_of_le hv (Nat.pow_le_pow_right (by norm_num) (by omega)))
    simp [hik, hvi]

/-- A blocking RX pull returns at once when a word is already available. -/
theorem runUntilRx_of_ne (th fuel : Nat) (e : EngineState) (h : e.rx ≠ []) :
    runUntilRx th fuel e = e := by
  cases fuel <;> simp [runUntilRx, h]

/-- Projection facts for the demo master (clock pin 2, MOSI 3, MISO 4,
divider 8). -/
theorem mkMaster_message_size (ms : Nat) : (mkMaster ms).message_size = ms := rfl

/-- Construction logs exactly one TX push: the `message_size` word. -/
theorem mkMaster_txLog (ms : Nat) : (mkMaster ms).txLog = [ms % 2 ^ 32] := rfl

/-- Echo harness keeps the message size of the underlying master. -/
theorem echoMaster_message_size (ms v : Nat) :
    (echoMaster ms v).message_size = ms := rfl

/-- Echo harness keeps the construction-time TX log. -/
theorem echoMaster_txLog (ms v : Nat) : (echoMaster ms v).txLog = [ms % 2 ^ 32] :=
  rfl

/-- Pushing a TX word does not touch the RX FIFO. -/
theorem hostPush_engine_rx (m : PioSpiMaster) (w : Nat) :
    (hostPush m w).engine.rx = m.engine.rx := rfl

/-- Pushing a TX word does not change the configured width. -/
theorem hostPush_message_size (m : PioSpiMaster) (w : Nat) :
    (hostPush m w).message_size = m.message_size := rfl

/-- A pull with a word already waiting returns that word. -/
theorem hostPull_fst (m : PioSpiMaster) (w : Nat) (rest : List Nat)
    (h : m.engine.rx = w :: rest) : (hostPull m).1 = w := by
  have hne : m.engine.rx ≠ [] := by simp [h]
  simp [hostPull, runUntilRx_of_ne _ _ _ hne, h]

/-- A pull with a word already waiting dequeues exactly that word. -/
theorem hostPull_snd_rx (m : PioSpiMaster) (w : Nat) (rest : List Nat)
    (h : m.engine.rx = w :: rest) : (hostPull m).2.engine.rx = rest := by
  have hne : m.engine.rx ≠ [] := by simp [h]
  simp [hostPull, runUntilRx_of_ne _ _ _ hne, h]

/-- The words one `transfer` call appends to the TX push log, read off the
push section of src/src/lib.rs lines 154-161. -/
theorem transfer_txLog (m : PioSpiMaster) (v : Nat) :
    (m.transfer v).2.txLog =
      if 1 < divCeil m.message_size 32 then
        m.txLog ++
          [((v &&& ((1 <<< m.message_size) - 1)) &&& 0xFFFFFFFF) % 2 ^ 32,
           (((v &&& ((1 <<< m.message_size) - 1)) >>> 32) &&& 0xFFFFFFFF) % 2 ^ 32]
      else
        m.txLog ++ [((v &&& ((1 <<< m.message_size) - 1)) &&& 0xFFFFFFFF) % 2 ^ 32] := by
  by_cases h : 1 < divCeil m.message_size 32 <;>
    simp [PioSpiMaster.transfer, hostPush, hostPull, h]

/-- Result of a two-word `transfer` whose RX FIFO already holds the two
response words: they are recombined low word first and masked. -/
theorem transfer_fst_two (m : PioSpiMaster) (v w1 w2 : Nat)
    (hw : divCeil m.message_size 32 = 2)
    (hrx : m.engine.rx = [w1, w2]) :
    (m.transfer v).1 = (w1 ||| (w2 <<< 32)) &&& ((1 <<< m.message_size) - 1) := by
  simp only [PioSpiMaster.transfer, hw]
  norm_num
  rw [hostPull_fst _ w1 [w2] (by simp [hostPush_engine_rx, hrx]),
      hostPull_fst _ w2 [] (hostPull_snd_rx _ w1 [w2] (by simp [hostPush_engine_rx, hrx]))]

/-- Result of a one-word `transfer` whose RX FIFO already holds the response
word: that word, masked. -/
theorem transfer_fst_one (m : PioSpiMaster) (v w1 : Nat) (rest : List Nat)
    (hw : divCeil m.message_size 32 = 1)
    (hrx : m.engine.rx = w1 :: rest) :
    (m.transfer v).1 = w1 &&& ((1 <<< m.message_size) - 1) := by
  simp only [PioSpiMaster.transfer, hw]
  norm_num
  rw [hostPull_fst _ w1 rest (by simp [hostPush_engine_rx, hrx])]

/-! ### Claim theorems -/

/-- C2 counterexample: at the out-of-range width 61, `new` does not fail with
`WidthOutOfRange` — construction succeeds, refuting the claim's failure half
at a concrete input. -/
theorem width_validation_cex :
    newOutcome 2 3 4 { clk_div := 8, message_size := 61 } ≠
      Except.error ConfigError.WidthOutOfRange := by
  simp [newOutcome]

/-- C2 (amended): construction never fails.  `new` performs no width
validation: for every configuration, in range or not, it succeeds and
records the given `message_size` unchecked; no construction-time error
exists in the code. -/
theorem construction_never_fails (clk_pin mosi_pin miso_pin : Nat)
    (config : SpiMasterConfig) :
    newOutcome clk_pin mosi_pin miso_pin config =
      Except.ok (PioSpiMaster.new clk_pin mosi_pin miso_pin config) ∧
    (PioSpiMaster.new clk_pin mosi_pin miso_pin config).message_size =
      config.message_size :=
  ⟨rfl, rfl⟩

/-- C3: `transfer` and `write` depend on their argument only through its low
`message_size` bits — calling them with any higher bits set is identical
(same pushed words, same result, same final state) to calling them with
those bits cleared. -/
theorem transfer_write_mask_idempotent (m : PioSpiMaster) (v : Nat)
    (h1 : 16 ≤ m.message_size) (h2 : m.message_size ≤ 60) :
    m.transfer v = m.transfer (v &&& ((1 <<< m.message_size) - 1)) ∧
    m.write v = m.write (v &&& ((1 <<< m.message_size) - 1)) := by
  constructor <;>
    simp only [PioSpiMaster.transfer, PioSpiMaster.write, land_mask_twice]

/-- C3 witness: message size 50, a value with all high bits in play. -/
theorem transfer_write_mask_idempotent_witness :
    (mkMaster 50).transfer (2 ^ 63 + 5) =
      (mkMaster 50).transfer
        ((2 ^ 63 + 5) &&& ((1 <<< (mkMaster 50).message_size) - 1)) ∧
    (mkMaster 50).write (2 ^ 63 + 5) =
      (mkMaster 50).write
        ((2 ^ 63 + 5) &&& ((1 <<< (mkMaster 50).message_size) - 1)) :=
  transfer_write_mask_idempotent (mkMaster 50) (2 ^ 63 + 5) (by decide) (by decide)

/-- C4: one `transfer` call pushes exactly `ceil(message_size / 32)` words
into the TX FIFO and pulls exactly `ceil(message_size / 32)` words from the
RX FIFO — never more, never fewer. -/
theorem transfer_word_count (m : PioSpiMaster) (v : Nat)
    (h1 : 16 ≤ m.message_size) (h2 : m.message_size ≤ 60) :
    (m.transfer v).2.txLog.length = m.txLog.length + divCeil m.message_size 32 ∧
    (m.transfer v).2.pullCount = m.pullCount + divCeil m.message_size 32 := by
  rcases Nat.lt_or_ge 32 m.message_size with h | h
  · have hw : divCeil m.message_size 32 = 2 := by unfold divCeil; omega
    simp [PioSpiMaster.transfer, hostPush, hostPull, hw]
  · have hw : divCeil m.message_size 32 = 1 := by unfold divCeil; omega
    simp [PioSpiMaster.transfer, hostPush, hostPull, hw]

/-- C4 witness: the 16-bit demo transfer pushes and pulls one word. -/
theorem transfer_word_count_witness :
    ((mkMaster 16).transfer 0xABCD).2.txLog.length =
      (mkMaster 16).txLog.length + divCeil (mkMaster 16).message_size 32 ∧
    ((mkMaster 16).transfer 0xABCD).2.pullCount =
      (mkMaster 16).pullCount + divCeil (mkMaster 16).message_size 32 :=
  transfer_word_count (mkMaster 16) 0xABCD (by decide) (by decide)

/-- C8: `write` pushes exactly the word sequence `transfer` pushes, performs
no RX pull, and leaves the RX FIFO untouched. -/
theorem write_pushes_transfer_words (m : PioSpiMaster) (v : Nat)
    (h1 : 16 ≤ m.message_size) (h2 : m.message_size ≤ 60) :
    (m.write v).txLog = (m.transfer v).2.txLog ∧
    (m.write v).engine.rx = m.engine.rx ∧
    (m.write v).pullCount = m.pullCount := by
  by_cases h : 1 < divCeil m.message_size 32 <;>
    simp [PioSpiMaster.transfer, PioSpiMaster.write, hostPush, hostPull, h]

/-- C8 witness: the 60-bit demo value. -/
theorem write_pushes_transfer_words_witness :
    ((mkMaster 60).write 0x0FEDCBA987654321).txLog =
      ((mkMaster 60).transfer 0x0FEDCBA987654321).2.txLog ∧
    ((mkMaster 60).write 0x0FEDCBA987654321).engine.rx =
      (mkMaster 60).engine.rx ∧
    ((mkMaster 60).write 0x0FEDCBA987654321).pullCount =
      (mkMaster 60).pullCount :=
  write_pushes_transfer_words (mkMaster 60) 0x0FEDCBA987654321
    (by decide) (by decide)

/-- C6: the configuration `new` derives sets the outbound shift register to
auto-fill at threshold 32 and the inbound shift register to auto-push at
threshold `min message_size 32`, for every width in range. -/
theorem shift_threshold_derivation (clk_pin mosi_pin miso_pin d ms : Nat)
    (h1 : 16 ≤ ms) (h2 : ms ≤ 60) :
    (PioSpiMaster.new clk_pin mosi_pin miso_pin
        { clk_div := d, message_size := ms }).cfg.shift_out.threshold = 32 ∧
    (PioSpiMaster.new clk_pin mosi_pin miso_pin
        { clk_div := d, message_size := ms }).cfg.shift_out.auto_fill = true ∧
    (PioSpiMaster.new clk_pin mosi_pin miso_pin
        { clk_div := d, message_size := ms }).cfg.shift_in.threshold = min ms 32 ∧
    (PioSpiMaster.new clk_pin mosi_pin miso_pin
        { clk_div := d, message_size := ms }).cfg.shift_in.auto_fill = true :=
  ⟨rfl, rfl, rfl, rfl⟩

/-- C6 witness: the 50-bit demo configuration. -/
theorem shift_threshold_derivation_witness :
    (PioSpiMaster.new 2 3 4
        { clk_div := 8, message_size := 50 }).cfg.shift_out.threshold = 32 ∧
    (PioSpiMaster.new 2 3 4
        { clk_div := 8, message_size := 50 }).cfg.shift_out.auto_fill = true ∧
    (PioSpiMaster.new 2 3 4
        { clk_div := 8, message_size := 50 }).cfg.shift_in.threshold = min 50 32 ∧
    (PioSpiMaster.new 2 3 4
        { clk_div := 8, message_size := 50 }).cfg.shift_in.auto_fill = true :=
  shift_threshold_derivation 2 3 4 8 50 (by decide) (by decide)

/-- C9: the mask `(1u64 << message_size) - 1` of `transfer` and `write` is a
well-defined shift equal to `2 ^ message_size - 1` for every in-range width,
the shift overflows (panics) for `message_size ≥ 64`, and `new` performs no
range check that would keep such widths out. -/
theorem mask_shift_guard :
    (∀ ms, 16 ≤ ms → ms ≤ 60 →
      transferMaskChecked ms = some (2 ^ ms - 1) ∧ 2 ^ ms - 1 < 2 ^ 64) ∧
    (∀ ms, 64 ≤ ms → transferMaskChecked ms = none) ∧
    (PioSpiMaster.new 2 3 4
      { clk_div := 8, message_size := 64 }).message_size = 64 := by
  refine ⟨fun ms ha hb => ⟨?_, ?_⟩, fun ms h => ?_, rfl⟩
  · simp [transferMaskChecked, Nat.one_shiftLeft, show ms < 64 by omega]
  · have hle : 2 ^ ms ≤ 2 ^ 60 := Nat.pow_le_pow_right (by norm_num) hb
    have hlt : (2 : Nat) ^ 60 < 2 ^ 64 := by norm_num
    omega
  · simp [transferMaskChecked, show ¬ ms < 64 by omega]

/-- C9 witness: exact mask at width 60, overflow at width 64. -/
theorem mask_shift_guard_witness :
    transferMaskChecked 60 = some (2 ^ 60 - 1) ∧ transferMaskChecked 64 = none :=
  ⟨(mask_shift_guard.1 60 (by norm_num) (by norm_num)).1,
   mask_shift_guard.2.1 64 (by norm_num)⟩

set_option maxRecDepth 100000 in
/-- C10: `new` stores `(clk_div - 1)` (as a `u32`, in 24.8 fixed point) as
the clock divider; the subtraction is exact for `clk_div ≥ 1` and underflows
for `clk_div = 0`, wrapping to `2 ^ 32 - 1` (a panic in debug builds). -/
theorem clock_divider_computation (d : Nat) (hd : d < 2 ^ 16) :
    (1 ≤ d →
      clkDividerChecked d = some (d - 1) ∧
      (PioSpiMaster.new 2 3 4
          { clk_div := d, message_size := 16 }).cfg.clock_divider =
        (d - 1) * 2 ^ 8) ∧
    (d = 0 → clkDividerChecked d = none) ∧
    (PioSpiMaster.new 2 3 4
        { clk_div := 0, message_size := 16 }).cfg.clock_divider =
      (2 ^ 32 - 1) * 2 ^ 8 := by
  refine ⟨fun h1 => ⟨?_, ?_⟩, fun h0 => ?_, ?_⟩
  · simp [clkDividerChecked, h1]
  · simp only [PioSpiMaster.new, hostPush]
    omega
  · simp [clkDividerChecked, h0]
  · norm_num [PioSpiMaster.new, hostPush]

/-- C10 witness: the demo divider 8, and the underflowing divider 0. -/
theorem clock_divider_computation_witness :
    clkDividerChecked 8 = some (8 - 1) ∧
    (PioSpiMaster.new 2 3 4
        { clk_div := 8, message_size := 16 }).cfg.clock_divider =
      (8 - 1) * 2 ^ 8 ∧
    clkDividerChecked 0 = none :=
  ⟨((clock_divider_computation 8 (by norm_num)).1 (by norm_num)).1,
   ((clock_divider_computation 8 (by norm_num)).1 (by norm_num)).2,
   (clock_divider_computation 0 (by norm_num)).2.1 rfl⟩

/-- C5: the words `transfer` pushes are the masked value split low word
first — the first word is bits [31:0], and for widths over 32 the second is
bits [width-1:32] — and `transfer`'s own pull-and-recombine path, fed exactly
those words back (the `echoMaster` harness), returns the value itself. -/
theorem transfer_split_recombine (ms v : Nat) (h1 : 16 ≤ ms) (h2 : ms ≤ 60)
    (hv : v < 2 ^ ms) :
    (32 < ms →
      ((echoMaster ms v).transfer v).2.txLog =
        (echoMaster ms v).txLog ++ [v % 2 ^ 32, v / 2 ^ 32]) ∧
    (ms ≤ 32 →
      ((echoMaster ms v).transfer v).2.txLog =
        (echoMaster ms v).txLog ++ [v]) ∧
    ((echoMaster ms v).transfer v).1 = v := by
  have hd : v &&& ((1 <<< ms) - 1) = v := by
    rw [and_shiftLeft_mask, Nat.mod_eq_of_lt hv]
  have hms : (echoMaster ms v).message_size = ms := rfl
  rcases Nat.lt_or_ge 32 ms with h32 | h32
  · have hw : divCeil (echoMaster ms v).message_size 32 = 2 := by
      rw [hms]; unfold divCeil; omega
    have hv64 : v < 2 ^ 64 :=
      lt_of_lt_of_le hv (Nat.pow_le_pow_right (by norm_num) (by omega))
    have hhi : v / 2 ^ 32 < 2 ^ 32 := by omega
    have hrx : (echoMaster ms v).engine.rx = [v % 2 ^ 32, v / 2 ^ 32] := by
      simp [echoMaster, hd, h32]
    refine ⟨fun _ => ?_, fun hle => by omega, ?_⟩
    · rw [transfer_txLog, if_pos (by rw [hw]; norm_num)]
      simp [hms, hd, and_u32, Nat.shiftRight_eq_div_pow]
      omega
    · rw [transfer_fst_two (echoMaster ms v) v (v % 2 ^ 32) (v / 2 ^ 32) hw hrx, hms]
      exact or_low_high v ms hv
  · have hw : divCeil (echoMaster ms v).message_size 32 = 1 := by
      rw [hms]; unfold divCeil; omega
    have hv32 : v < 2 ^ 32 :=
      lt_of_lt_of_le hv (Nat.pow_le_pow_right (by norm_num) h32)
    have hrx : (echoMaster ms v).engine.rx = [v] := by
      simp [echoMaster, hd, show ¬ 32 < ms by omega]
      omega
    refine ⟨fun hgt => by omega, fun _ => ?_, ?_⟩
    · rw [transfer_txLog, if_neg (by rw [hw]; norm_num)]
      simp [hms, hd, and_u32]
      omega
    · rw [transfer_fst_one (echoMaster ms v) v v [] hw hrx, hms, hd]

/-- C5 witness: the 50-bit demo value splits into `0x23456789` and `0x1` and
recombines to itself. -/
theorem transfer_split_recombine_witness :
    (32 < 50 →
      ((echoMaster 50 0x123456789).transfer 0x123456789).2.txLog =
        (echoMaster 50 0x123456789).txLog ++
          [0x123456789 % 2 ^ 32, 0x123456789 / 2 ^ 32]) ∧
    (50 ≤ 32 →
      ((echoMaster 50 0x123456789).transfer 0x123456789).2.txLog =
        (echoMaster 50 0x123456789).txLog ++ [0x123456789]) ∧
    ((echoMaster 50 0x123456789).transfer 0x123456789).1 = 0x123456789 :=
  transfer_split_recombine 50 0x123456789 (by decide) (by decide) (by decide)

/-- C1 counterexample: with the data-out line wired directly to the data-in
line, the spec's own concrete case (BitWidth 16, v = 0xABCD) does not
round-trip — the first transfer returns 0, not `v &&& mask`. -/
theorem loopback_roundtrip_cex :
    firstLoopbackTransfer 16 0xABCD ≠ 0xABCD &&& ((1 <<< 16) - 1) := by decide

set_option maxRecDepth 100000 in
/-- C1 (amended): under loopback wiring the round trip fails.  The program's
read phase begins only after its write phase has ended, so every bit it
samples is a copy of the line level left behind by the write phase; the
result is a run of equal bits, not v.  At the spec's concrete cases the
first transfer returns 0, 0x3E000FFFFFFFF and 0 instead of the masked
values, and at BitWidth 32 it returns 0xFFFFFFFF for v = 0xDEADBEEF. -/
theorem loopback_reads_constant_level :
    firstLoopbackTransfer 16 0xABCD = 0 ∧
    firstLoopbackTransfer 50 0x123456789 = 0x3E000FFFFFFFF ∧
    firstLoopbackTransfer 60 0x0FEDCBA987654321 = 0 ∧
    firstLoopbackTransfer 32 0xDEADBEEF = 0xFFFFFFFF := by decide

set_option maxRecDepth 100000 in
/-- C7 (code bug): one full cycle of the sequencer program produces
`4 * (N + 1)` clock transitions, not the documented `4 * N`.  The loops
`jmp x--, loop_write` and `jmp x--, loop_read` run with `x = N`, and the
post-decrement condition executes each loop body `N + 1` times, so each
phase toggles the clock `2 * (N + 1)` times — at the demo width 16 a cycle
shows 68 transitions, not 64. -/
theorem clock_edges_per_cycle :
    edgesPerCycle 16 = 68 ∧ edgesPerCycle 32 = 132 ∧
    edgesPerCycle 50 = 204 ∧ edgesPerCycle 60 = 244 ∧
    edgesPerCycle 16 ≠ 4 * 16 := by decide

end PioSpi
